import Mathlib

/-!
Verification development for the remote-yt web client (ui/src).

The definitions below are a shallow embedding of the client's queue/player
reconciliation logic: the snapshot poller and its error ref
(`components/queue.tsx`), the drag-reorder handler and dnd-kit's `arrayMove`,
the command dispatcher (`lib/commands.ts`), the enqueue form
(`components/form.tsx`, `src/unnamed/part_003`) together with the enqueue
mutation (`App.tsx`), the history-invalidation effect
(`components/now-playing.tsx`), and the seek-bar pointer math
(`PlayerProgress` in `components/queue.tsx` / `src/unnamed/part_005`).
JavaScript numbers are modelled as `Int`/`Rat`; JavaScript array helpers
(`findIndex`, `splice`-based `arrayMove`) are modelled with their JS
index conventions (`-1` for "not found", negative-index normalisation).
-/

namespace RemoteYt

/-! ## Data model (src/ui/src/types/inspect.ts)

`TrackInfo.webpage_url` is read by `components/now-playing.tsx`'s history
effect; the checked-in `types/inspect.ts` snapshot predates that field, so it
is included here as the component requires it. -/

inductive TrackType where
  | merged
  | split
  deriving Repr, DecidableEq

structure TrackInfo where
  title : String
  channel : String
  uploader_id : String
  acodec : String
  vcodec : String
  height : Option Int
  width : Option Int
  thumbnail : String
  track_type : TrackType
  duration : Int
  webpage_url : String
  deriving Repr, DecidableEq

structure PlayerState where
  state : Bool -- true = playing, false = paused
  time : Rat
  length : Rat
  volume : Rat
  deriving Repr, DecidableEq

structure InspectItem where
  job_id : String
  current : Bool
  track_info : TrackInfo
  deriving Repr, DecidableEq

structure InspectApi where
  now_playing : Option InspectItem
  queue : List InspectItem
  player : Option PlayerState
  deriving Repr, DecidableEq

/-! ## JavaScript array helpers -/

/-- JS `Array.prototype.findIndex`: index of the first element satisfying
`p`, `-1` when there is none. -/
def findIndexJs (p : α → Bool) : List α → Int
  | [] => -1
  | x :: xs =>
    if p x then 0
    else
      let r := findIndexJs p xs
      if r < 0 then -1 else r + 1

/-- Normalisation of a `splice` start argument against an array of length
`len`: a negative start counts from the end (clamped at 0), a start past the
end is clamped to `len`. -/
def jsSpliceStart (start : Int) (len : Nat) : Nat :=
  if start < 0 then (len + start).toNat else min start.toNat len

/-- dnd-kit's `arrayMove(array, from, to)`:
`newArray.splice(to < 0 ? newArray.length + to : to, 0, newArray.splice(from, 1)[0])`.
The insertion index is computed against the original length, the removal
happens first, then the insertion start is normalised against the shortened
array. When `splice(from, 1)` removes nothing (empty array), JS would insert
`undefined`; that branch is unreachable from `handleDragEnd`, whose indices
come from `findIndex` over the rendered items, and is modelled as a no-op. -/
def arrayMove (l : List α) (fromIdx toIdx : Int) : List α :=
  let len := l.length
  let insPre : Int := if toIdx < 0 then (len : Int) + toIdx else toIdx
  let f := jsSpliceStart fromIdx len
  match l.get? f with
  | none => l
  | some x =>
    let rest := l.eraseIdx f
    rest.insertIdx (jsSpliceStart insPre rest.length) x

/-! ## Queue component state (src/ui/src/components/queue.tsx) -/

/-- Reorder request issued by `useQueueMutations().reorder`
(`POST /api/move/job_id/new_pos`). -/
structure ReorderCall where
  job_id : String
  new_pos : Int
  deriving Repr, DecidableEq

/-- Drag-end event as seen by `handleDragEnd`: the dragged sortable's id and
the id of the droppable under the pointer (if any). -/
structure DragEndEvent where
  activeId : String
  over : Option String
  deriving Repr, DecidableEq

/-- Effect body of `queue.tsx`'s snapshot sync:
`items.length > 1 ? items.map(item => (...item, id: item.job_id)).slice(1) : []`
(the added `id` field duplicates `job_id` and is dropped here). This is the
local mirror the drag logic operates on. -/
def acceptSnapshot (s : InspectApi) : List InspectItem :=
  let items := s.queue
  if items.length > 1 then items.drop 1 else []

/-- Now-playing slot source in `queue.tsx`: `items[0] ?? null`, where
`items = data?.queue ?? []`. Note the separate `now_playing` field of the
snapshot is never read. -/
def nowPlayingOf (s : InspectApi) : Option InspectItem :=
  s.queue.head?

/-- `handleDragEnd` from `queue.tsx`: when a drop target exists and differs
from the dragged item, look up both indices by `job_id`, issue
`reorder(active.id, newIndex)` and permute the local mirror with
`arrayMove`. -/
def handleDragEnd (queue : List InspectItem) (e : DragEndEvent) :
    List InspectItem × List ReorderCall :=
  match e.over with
  | some overId =>
    if e.activeId ≠ overId then
      let oldIndex := findIndexJs (fun it => e.activeId == it.job_id) queue
      let newIndex := findIndexJs (fun it => overId == it.job_id) queue
      (arrayMove queue oldIndex newIndex, [⟨e.activeId, newIndex⟩])
    else (queue, [])
  | none => (queue, [])

/-- Events that write the local queue mirror: a successful poll (the snapshot
sync effect) or a completed drag gesture. -/
inductive QueueEvent where
  | poll (s : InspectApi)
  | dragEnd (e : DragEndEvent)

/-- One transition of the local mirror, returning the reorder requests it
dispatches. -/
def stepQueue (st : List InspectItem) : QueueEvent → List InspectItem × List ReorderCall
  | .poll s => (acceptSnapshot s, [])
  | .dragEnd e => handleDragEnd st e

/-- Run a sequence of queue events, collecting all dispatched reorder
requests in submission order. -/
def runQueue (st : List InspectItem) : List QueueEvent → List InspectItem × List ReorderCall
  | [] => (st, [])
  | ev :: evs =>
    let r := stepQueue st ev
    let r' := runQueue r.1 evs
    (r'.1, r.2 ++ r'.2)

/-! ## Command dispatcher (src/ui/src/lib/commands.ts) -/

/-- Player transport command vocabulary (`type Command` in `commands.ts`). -/
inductive PlayerCommand where
  | seekForward
  | seekRewind
  | seekTo (time : Int)
  | togglePause
  | mute
  | fullVolume
  deriving Repr, DecidableEq

/-- JSON body produced by `JSON.stringify(command)`. -/
def commandBody : PlayerCommand → String
  | .seekForward => "\"SeekForward\""
  | .seekRewind => "\"SeekRewind\""
  | .seekTo t => "\x7b\"SeekTo\":" ++ toString t ++ "\x7d"
  | .togglePause => "\"TogglePause\""
  | .mute => "\"Mute\""
  | .fullVolume => "\"FullVolume\""

/-- Observable effect of a mutation: an HTTP POST, or an invalidation of the
`queue` query (which forces an immediate re-poll). -/
inductive Effect where
  | post (path : String) (body : Option String)
  | invalidateQueue
  deriving Repr, DecidableEq

/-- Effects of one `usePlayerCommandsMutation` dispatch. The mutation fn is
`await fetch(...); queryClient.invalidateQueries(queue)`: when the fetch
promise rejects (transport failure, `transportOk = false`) the `await`
throws and the invalidation is never reached. -/
def executeCommandEffects (c : PlayerCommand) (transportOk : Bool) : List Effect :=
  .post "/api/execute_command" (some (commandBody c)) ::
    (if transportOk then [.invalidateQueue] else [])

/-- Effects of one `reorderMutation` dispatch (`POST /api/move/job_id/new_pos`
then, on transport success only, invalidation of the queue query). -/
def moveEffects (job_id : String) (new_pos : Int) (transportOk : Bool) : List Effect :=
  .post ("/api/move/" ++ job_id ++ "/" ++ toString new_pos) none ::
    (if transportOk then [.invalidateQueue] else [])

/-- Effects of one `cancelMutation` dispatch: the mutation fn returns the
`fetch` promise directly and never invalidates the queue query. -/
def cancelEffects (job_id : String) : List Effect :=
  [.post ("/api/cancel/" ++ job_id) none]

/-- Effects of one `swapMutation` (promote) dispatch: no invalidation. -/
def swapEffects (job_id : String) : List Effect :=
  [.post ("/api/swap/" ++ job_id) none]

/-- Effects of one `clearMutation` dispatch: no invalidation. -/
def clearEffects : List Effect :=
  [.post "/api/clear" none]

/-! ## Snapshot poller and error ref (src/ui/src/components/queue.tsx)

`useQuery` runs with `refetchInterval: 1000` and the TanStack Query default
`retry: 3`: a failed attempt is retried silently up to three times, so the
query's surfaced `error` is set only on the fourth consecutive failed
attempt; a successful attempt publishes the data and clears both the error
and the failure count. While data is present and no error has been
surfaced the query status stays `success`. The component keeps
`errorRef` (`if (error || isSuccess) errorRef.current = error`) and renders
"Server offline" iff `errorRef.current` is set. -/

/-- TanStack Query default `retry` count. -/
def retryLimit : Nat := 3

/-- Observable state of the `queue` query. -/
structure QueryState where
  data : Option InspectApi
  error : Bool
  failureCount : Nat
  deriving Repr, DecidableEq

/-- Component-level view: the query state plus the `errorRef` ref cell. -/
structure QueueView where
  query : QueryState
  errorRef : Bool
  deriving Repr, DecidableEq

/-- Outcome of one poll attempt (one execution of the `queryFn`). -/
inductive PollAttempt where
  | ok (s : InspectApi)
  | fail

/-- Query-state update for one settled poll attempt: success publishes the
snapshot and resets the failure bookkeeping; a failure increments the
failure count and surfaces the error only once the retry budget
(`retryLimit`) is exhausted. -/
def applyAttempt (q : QueryState) (a : PollAttempt) : QueryState :=
  match a with
  | .ok s => { data := some s, error := false, failureCount := 0 }
  | .fail =>
    let n := q.failureCount + 1
    if n > retryLimit then { q with error := true, failureCount := n }
    else { q with failureCount := n }

/-- `isSuccess` as the component sees it: data present and no surfaced
error. -/
def isSuccessQ (q : QueryState) : Bool :=
  q.data.isSome && !q.error

/-- Render-time ref update: `if (error || isSuccess) errorRef.current = error`. -/
def renderRefUpdate (v : QueueView) : QueueView :=
  if v.query.error || isSuccessQ v.query then { v with errorRef := v.query.error } else v

/-- One poll attempt followed by the re-render that updates `errorRef`. -/
def stepPoll (v : QueueView) (a : PollAttempt) : QueueView :=
  renderRefUpdate { v with query := applyAttempt v.query a }

/-- What the `Queue` component renders at top level: the offline banner when
`errorRef.current` is set, otherwise the content derived from the latest
data. -/
inductive RenderedQueue where
  | offline
  | content (data : Option InspectApi)
  deriving Repr, DecidableEq

/-- Render decision of the `Queue` component. -/
def renderQueue (v : QueueView) : RenderedQueue :=
  if v.errorRef then .offline else .content v.query.data

/-- View state right after a successful poll of `s`: data published, no
error, no failures remembered, `errorRef` clear. -/
def syncedOn (s : InspectApi) : QueueView :=
  ⟨⟨some s, false, 0⟩, false⟩

/-! ## Up-next section and enqueue placeholder (queue.tsx render, App.tsx) -/

/-- Render guard of the "Up Next" section:
`queue.length !== 0 || (queue.length === 0 && !!nowPlaying && isMutationPending)`. -/
def upNextSectionVisible (queue : List InspectItem) (nowPlaying : Option InspectItem)
    (isMutationPending : Bool) : Bool :=
  !queue.isEmpty || (queue.isEmpty && nowPlaying.isSome && isMutationPending)

/-- Number of trailing "resolving" placeholders rendered: inside the
"Up Next" section, `isMutationPending && <QueueListItem item=null>` renders
exactly one placeholder, and none is rendered when the section itself is
hidden. -/
def trailingPlaceholders (queue : List InspectItem) (nowPlaying : Option InspectItem)
    (isMutationPending : Bool) : Nat :=
  if upNextSectionVisible queue nowPlaying isMutationPending && isMutationPending
  then 1 else 0

/-- Text shown in the now-playing slot when no item is loaded
(`NowPlaying` with `item = null`): "Adding to queue..." while the enqueue
mutation is pending, "Nothing playing" otherwise; `none` when an item is
present. -/
inductive NowPlayingEmptyText where
  | addingToQueue
  | nothingPlaying
  deriving Repr, DecidableEq

/-- Empty-state text of the now-playing slot. -/
def nowPlayingSlotText (item : Option InspectItem) (isMutationPending : Bool) :
    Option NowPlayingEmptyText :=
  if item.isNone then
    some (if isMutationPending then .addingToQueue else .nothingPlaying)
  else none

/-! ## Enqueue form and enqueue mutation (src/unnamed/part_003, App.tsx)

`src/unnamed/part_003` is the `Form` variant whose quality map carries all
six tiers (`sd, hd, fhd, sd_s, hd_s, fhd_s`), including the 720p-split tier
`hd_s`; `src/ui/src/components/form.tsx` offers the subset
`sd, hd, fhd, sd_s` and selects split by `quality === "sd_s"`, which on
that subset coincides with the `_s`-suffix test. The enqueue mutation in
`App.tsx` posts `\x7burl, height\x7d` to `/api/queue_merged` or
`/api/queue_split` by `video_type`. -/

/-- Video delivery selection (`type VideoType` in the types modules). -/
inductive VideoType where
  | merged
  | split
  deriving Repr, DecidableEq

/-- Quality tiers of the six-tier form (`QUALITY_TO_MIN_HEIGHT` keys in
`src/unnamed/part_003`). -/
inductive Quality where
  | sd
  | hd
  | fhd
  | sd_s
  | hd_s
  | fhd_s
  deriving Repr, DecidableEq

/-- JS `String.prototype.endsWith(p)`: the character sequence of `p` is a
suffix of the receiver's. -/
def endsWithJs (s p : String) : Bool :=
  p.data.isSuffixOf s.data

/-- Select `value` attribute for each tier. -/
def qualityValue : Quality → String
  | .sd => "sd"
  | .hd => "hd"
  | .fhd => "fhd"
  | .sd_s => "sd_s"
  | .hd_s => "hd_s"
  | .fhd_s => "fhd_s"

/-- `QUALITY_TO_MIN_HEIGHT` from `src/unnamed/part_003`. -/
def QUALITY_TO_MIN_HEIGHT : Quality → Nat
  | .sd => 480
  | .hd => 720
  | .fhd => 1080
  | .sd_s => 480
  | .hd_s => 720
  | .fhd_s => 1080

/-- `handleSubmit` of the six-tier form: it calls
`mutation.mutate([quality.endsWith("_s") ? "split" : "merged", url, min_height])`. -/
def formSubmitArgs (q : Quality) (url : String) : VideoType × String × Nat :=
  ((if endsWithJs (qualityValue q) "_s" then VideoType.split else VideoType.merged),
   url, QUALITY_TO_MIN_HEIGHT q)

/-- Quality tiers of the checked-in four-tier form
(`src/ui/src/components/form.tsx`). -/
inductive QualityCur where
  | sd
  | hd
  | fhd
  | sd_s
  deriving Repr, DecidableEq

/-- `QUALITY_TO_MIN_HEIGHT` from `src/ui/src/components/form.tsx`. -/
def QUALITY_TO_MIN_HEIGHT_cur : QualityCur → Nat
  | .sd => 480
  | .hd => 720
  | .fhd => 1080
  | .sd_s => 480

/-- `handleSubmit` of the four-tier form: it calls
`mutation.mutate([quality === "sd_s" ? "split" : "merged", url, min_height])`. -/
def formSubmitArgsCur (q : QualityCur) (url : String) : VideoType × String × Nat :=
  ((if q = QualityCur.sd_s then VideoType.split else VideoType.merged),
   url, QUALITY_TO_MIN_HEIGHT_cur q)

/-- One enqueue HTTP request (`App.tsx` mutation fn). -/
structure EnqueueRequest where
  path : String
  url : String
  height : Nat
  deriving Repr, DecidableEq

/-- Requests issued by the `App.tsx` enqueue mutation fn for one `mutate`
call: exactly one POST of `\x7burl, height\x7d` to
`/api/queue_merged` or `/api/queue_split` by `video_type`. -/
def enqueueRequests : VideoType × String × Nat → List EnqueueRequest
  | (vt, url, h) =>
    let fragment := if vt = VideoType.merged then "queue_merged" else "queue_split"
    [⟨"/api/" ++ fragment, url, h⟩]

/-! ## History invalidation effect (src/ui/src/components/now-playing.tsx)

The component computes `webpageUrl = item?.track_info.webpage_url` and runs
`useEffect(() => queryClient.invalidateQueries(history), [webpageUrl, queryClient])`.
React runs the effect on the first render and then exactly on those renders
whose dependency differs (`Object.is`, value comparison for strings) from
the previous render's; `queryClient` is stable. A render sequence is
modelled by the per-render value of `webpageUrl` (`none` = nothing
playing). -/

/-- Per-render effect firings after the first render, given the previous
render's `webpageUrl` dependency. -/
def effectRunsAfter (prev : Option String) : List (Option String) → List Bool
  | [] => []
  | d :: ds => (d != prev) :: effectRunsAfter d ds

/-- Per-render effect firings over a whole render sequence: the effect
always runs on the mounting render, then only on dependency changes. -/
def effectRuns : List (Option String) → List Bool
  | [] => []
  | d :: ds => true :: effectRunsAfter d ds

/-- Number of history invalidations over a render sequence. -/
def historyInvalidations (renders : List (Option String)) : Nat :=
  (effectRuns renders).count true

/-- Number of distinct changes of the now-playing identity across a render
sequence: adjacent pairs whose values differ. -/
def identityChanges (renders : List (Option String)) : Nat :=
  (renders.zip renders.tail).countP (fun p => p.2 != p.1)

/-! ## Seek bar pointer math (PlayerProgress, queue.tsx / src/unnamed/part_005) -/

/-- JS `Math.round`: round half toward positive infinity. -/
def jsRound (q : Rat) : Int := ⌊q + 1 / 2⌋

/-- `updateTimeFromPointer` of `PlayerProgress`: clamp the pointer offset
into the bar's usable width (`rect.width` minus 16px padding on each side),
scale by the player length and round. The result is stored in `dragTime`
and dispatched as `SeekTo(dragTime)` on pointer-up while dragging. -/
def updateTimeFromPointer (rectLeft rectWidth clientX : Rat) (length : Rat) : Int :=
  let paddingX : Rat := 16
  let usableWidth := rectWidth - paddingX * 2
  let offsetX := min (max (clientX - rectLeft - paddingX) 0) usableWidth
  let percent := offsetX / usableWidth
  jsRound (percent * length)

/-! ## Sample data for concrete scenarios -/

/-- Minimal concrete track metadata for one sample item. -/
def mkInfo (t : String) : TrackInfo :=
  ⟨t, "channel", "uploader", "opus", "vp09.00", some 720, some 1280,
   "https://thumb/" ++ t, TrackType.merged, 100, "https://watch/" ++ t⟩

/-- Sample queue entry with the given `job_id`. -/
def mkItem (id : String) : InspectItem :=
  ⟨id, false, mkInfo id⟩

/-- Snapshot whose `now_playing` field differs from the head of its `queue`
field: `now_playing = A`, `queue = [B, C]`. -/
def exSnapC1 : InspectApi :=
  ⟨some (mkItem "A"), [mkItem "B", mkItem "C"], none⟩

/-- Two-item up-next mirror. -/
def exQueueAB : List InspectItem := [mkItem "A", mkItem "B"]

/-- Three-item up-next mirror. -/
def exQueueABC : List InspectItem := [mkItem "A", mkItem "B", mkItem "C"]

/-- Four-item up-next mirror for the J3 drag scenario. -/
def exQueue4 : List InspectItem :=
  [mkItem "J1", mkItem "J2", mkItem "J3", mkItem "J4"]

/-! ## Claims -/

/-- C1, counterexample: the `Queue` component derives the now-playing slot
from `queue[0]` and the up-next list from `queue.slice(1)`; it never reads
the snapshot's `now_playing` field. On the concrete snapshot `exSnapC1`
(`now_playing = A`, `queue = [B, C]`) the rendered now-playing slot is `B`,
not the snapshot's `now_playing` entry `A`, and the rendered up-next order
`[C]` is not the snapshot's queue sequence with the now-playing entry
excluded (`[B, C]`, since `A` does not occur in it). -/
theorem c1_now_playing_field_counterexample :
    nowPlayingOf exSnapC1 ≠ exSnapC1.now_playing ∧
    acceptSnapshot exSnapC1 ≠ exSnapC1.queue := by
  decide

/-- C1 (amended): for consecutive snapshots with no intervening user action,
the rendered state after `S` is determined by `S` alone — the poll
transition ignores the previous local mirror entirely (no residual
permutation) — but the now-playing slot shows the first element of `S`'s
`queue` field (not the separate `now_playing` field) and the rendered
up-next order is `S`'s queue sequence without its first element. -/
theorem snapshot_determines_render (L L' : List InspectItem) (S : InspectApi) :
    stepQueue L (QueueEvent.poll S) = stepQueue L' (QueueEvent.poll S) ∧
    (stepQueue L (QueueEvent.poll S)).1 = S.queue.drop 1 ∧
    nowPlayingOf S = S.queue.head? := by
  refine ⟨rfl, ?_, rfl⟩
  show acceptSnapshot S = S.queue.drop 1
  obtain ⟨np, q, pl⟩ := S
  rcases q with _ | ⟨a, _ | ⟨b, q⟩⟩
  · rfl
  · rfl
  · have h : (a :: b :: q).length > 1 := by simp
    simp [acceptSnapshot, h]

/-- C2, counterexample: `cancelMutation`, `swapMutation` and `clearMutation`
return the `fetch` promise directly and never invalidate the `queue` query,
so completing a `Cancel`, `Promote/swap` or `ClearAll` request triggers no
immediate re-poll; and a player command whose request fails at the
transport level (the fetch promise rejects) also skips the invalidation. -/
theorem c2_invalidation_counterexample :
    Effect.invalidateQueue ∉ cancelEffects "abc" ∧
    Effect.invalidateQueue ∉ swapEffects "abc" ∧
    Effect.invalidateQueue ∉ clearEffects ∧
    Effect.invalidateQueue ∉ executeCommandEffects PlayerCommand.togglePause false := by
  decide

/-- C2 (amended): the player transport commands (`SeekForward`, `SeekRewind`,
`SeekTo`, `TogglePause`, `Mute`, `FullVolume`) and `Move` invalidate the
queue query — forcing an immediate re-poll — exactly when their request
succeeds at the transport level; `Cancel`, `Promote/swap` and `ClearAll`
never trigger a re-poll, and a transport-level failure of a player or
`Move` request skips the re-poll. -/
theorem command_invalidation_policy :
    (∀ (c : PlayerCommand) (ok : Bool),
      Effect.invalidateQueue ∈ executeCommandEffects c ok ↔ ok = true) ∧
    (∀ (j : String) (p : Int) (ok : Bool),
      Effect.invalidateQueue ∈ moveEffects j p ok ↔ ok = true) ∧
    (∀ j : String, Effect.invalidateQueue ∉ cancelEffects j) ∧
    (∀ j : String, Effect.invalidateQueue ∉ swapEffects j) ∧
    Effect.invalidateQueue ∉ clearEffects := by
  refine ⟨?_, ?_, ?_, ?_, by decide⟩
  · intro c ok
    cases ok <;> simp [executeCommandEffects]
  · intro j p ok
    cases ok <;> simp [moveEffects]
  · intro j
    simp [cancelEffects]
  · intro j
    simp [swapEffects]

/-- C3: starting from a synced view rendering snapshot `S`, three
consecutive poll failures stay within the silent retry budget
(`retry: 3`), so the surfaced error and `errorRef` stay clear: the
"Server offline" state is never rendered, snapshot `S` stays rendered
through all three failures, and the following success renders the new
snapshot `S'`. -/
theorem three_failures_then_success_never_offline (S S' : InspectApi) :
    renderQueue (syncedOn S) = .content (some S) ∧
    renderQueue (stepPoll (syncedOn S) .fail) = .content (some S) ∧
    renderQueue (stepPoll (stepPoll (syncedOn S) .fail) .fail) = .content (some S) ∧
    renderQueue (stepPoll (stepPoll (stepPoll (syncedOn S) .fail) .fail) .fail) =
      .content (some S) ∧
    renderQueue (stepPoll (stepPoll (stepPoll (stepPoll (syncedOn S) .fail) .fail) .fail)
      (.ok S')) = .content (some S') := by
  exact ⟨rfl, rfl, rfl, rfl, rfl⟩

/-- Helper: a nonnegative `findIndexJs` result points at an element
satisfying the predicate. -/
theorem findIndexJs_spec {p : α → Bool} {l : List α} {i : Int}
    (h : findIndexJs p l = i) (hi : 0 ≤ i) :
    ∃ x, l.get? i.toNat = some x ∧ p x = true := by
  induction l generalizing i with
  | nil =>
    simp only [findIndexJs] at h
    omega
  | cons a t ih =>
    by_cases hp : p a
    · simp only [findIndexJs, hp, if_pos] at h
      subst h
      exact ⟨a, rfl, hp⟩
    · simp only [findIndexJs, hp, Bool.false_eq_true, if_false] at h
      split at h
      · omega
      · next hr =>
        have hr0 : 0 ≤ findIndexJs p t := by omega
        obtain ⟨x, hx, hpx⟩ := ih rfl hr0
        refine ⟨x, ?_, hpx⟩
        have hit : i.toNat = (findIndexJs p t).toNat + 1 := by omega
        rw [hit]
        simpa using hx

/-- Helper: with a valid removal index and an in-range insertion index,
dnd-kit's `arrayMove` is removal at `i` followed by insertion at `j`. -/
theorem arrayMove_valid {l : List α} {i j : Nat} {x : α}
    (hx : l.get? i = some x) (hj : j < l.length) :
    arrayMove l (i : Int) (j : Int) = (l.eraseIdx i).insertIdx j x := by
  have hi : i < l.length := by
    by_contra hge
    rw [List.get?_eq_none.mpr (by omega)] at hx
    exact Option.noConfusion hx
  have hfrom : jsSpliceStart (i : Int) l.length = i := by
    simp only [jsSpliceStart]
    rw [if_neg (by omega)]
    omega
  have hlen1 : 1 ≤ l.length := by omega
  have hrest : (l.eraseIdx i).length = l.length - 1 := by
    rw [List.length_eraseIdx]
    simp [hi]
  have hto : jsSpliceStart (j : Int) (l.eraseIdx i).length = j := by
    simp only [jsSpliceStart, hrest]
    rw [if_neg (by omega)]
    omega
  unfold arrayMove
  simp only [hfrom, hx]
  rw [if_neg (show ¬((j : Int) < 0) by omega), hto]

/-- C4: a drag released on the entry's own current position — the drop
target's index equals the dragged entry's index, which for the rendered
list forces `active.id === over.id` — issues no `Move` request and leaves
the rendered order unchanged. -/
theorem drag_to_same_position_noop (st : List InspectItem) (activeId overId : String)
    (i : Int)
    (ha : findIndexJs (fun it => activeId == it.job_id) st = i)
    (hb : findIndexJs (fun it => overId == it.job_id) st = i)
    (hi : 0 ≤ i) :
    handleDragEnd st ⟨activeId, some overId⟩ = (st, []) := by
  obtain ⟨x, hx, hpx⟩ := findIndexJs_spec ha hi
  obtain ⟨y, hy, hpy⟩ := findIndexJs_spec hb hi
  rw [hx] at hy
  injection hy with hxy
  subst hxy
  have heq : activeId = overId := by
    have h1 : activeId = x.job_id := by simpa using hpx
    have h2 : overId = x.job_id := by simpa using hpy
    rw [h1, h2]
  subst heq
  simp [handleDragEnd]

/-- C4 witness: releasing "A" over itself in the two-item list leaves the
list unchanged and dispatches nothing. -/
theorem drag_to_same_position_noop_witness :
    handleDragEnd exQueueAB ⟨"A", some "A"⟩ = (exQueueAB, []) :=
  drag_to_same_position_noop exQueueAB "A" "A" 0 (by decide) (by decide) (by decide)

/-- C5: a drag of the entry with id `activeId` from index `i` onto the entry
at a different index `j` of the rendered up-next mirror dispatches exactly
one `Move(activeId, j)` request — `j` being the 0-based index into the
up-next list, which excludes the now-playing entry — and the local order
immediately becomes the same permutation: the dragged entry removed from
`i` and inserted at `j`. -/
theorem drag_move_dispatch (st : List InspectItem) (activeId overId : String)
    (i j : Int) (x : InspectItem)
    (ha : findIndexJs (fun it => activeId == it.job_id) st = i)
    (hb : findIndexJs (fun it => overId == it.job_id) st = j)
    (hi : 0 ≤ i) (hj : 0 ≤ j) (hij : i ≠ j)
    (hx : st.get? i.toNat = some x) :
    handleDragEnd st ⟨activeId, some overId⟩ =
      ((st.eraseIdx i.toNat).insertIdx j.toNat x, [⟨activeId, j⟩]) := by
  have hne : activeId ≠ overId := by
    intro he
    subst he
    rw [ha] at hb
    exact hij hb
  have hjlen : j.toNat < st.length := by
    obtain ⟨y, hy, _⟩ := findIndexJs_spec hb hj
    by_contra hge
    rw [List.get?_eq_none.mpr (by omega)] at hy
    exact Option.noConfusion hy
  have hi' : (i.toNat : Int) = i := Int.toNat_of_nonneg hi
  have hj' : (j.toNat : Int) = j := Int.toNat_of_nonneg hj
  calc handleDragEnd st ⟨activeId, some overId⟩
      = (arrayMove st i j, [⟨activeId, j⟩]) := by
        simp only [handleDragEnd]
        rw [if_pos hne, ha, hb]
    _ = (arrayMove st (i.toNat : Int) (j.toNat : Int), [⟨activeId, j⟩]) := by
        rw [hi', hj']
    _ = ((st.eraseIdx i.toNat).insertIdx j.toNat x, [⟨activeId, j⟩]) := by
        rw [arrayMove_valid hx hjlen]

/-- C5 witness: the scenario — in the 4-item list `[J1, J2, J3, J4]`,
dragging `J3` (index 2) onto `J1` (index 0) dispatches `Move(J3, 0)` and
immediately renders `J3` first. -/
theorem drag_move_dispatch_witness :
    handleDragEnd exQueue4 ⟨"J3", some "J1"⟩ =
      ([mkItem "J3", mkItem "J1", mkItem "J2", mkItem "J4"], [⟨"J3", 0⟩]) := by
  have h := drag_move_dispatch exQueue4 "J3" "J1" 2 0 (mkItem "J3")
    (by decide) (by decide) (by decide) (by decide) (by decide) (by decide)
  rw [h]
  rfl

/-- C6, counterexample: two successive drags completed before any confirming
poll each dispatch their own `Move` request — starting from `[A, B, C]`,
dragging `A` to index 1 and then to index 2 dispatches `Move(A, 1)`
followed by `Move(A, 2)`, not only the most recent target `Move(A, 2)`. -/
theorem c6_every_drag_dispatches_counterexample :
    (runQueue exQueueABC
      [.dragEnd ⟨"A", some "B"⟩, .dragEnd ⟨"A", some "C"⟩]).2 =
      [⟨"A", 1⟩, ⟨"A", 2⟩] ∧
    (runQueue exQueueABC
      [.dragEnd ⟨"A", some "B"⟩, .dragEnd ⟨"A", some "C"⟩]).2 ≠
      [⟨"A", 2⟩] := by
  decide

/-- C6 (amended): each drag gesture dispatches at most one `Move` request of
its own (so N gestures dispatch up to N requests in submission order — a
later drag does not replace the earlier dispatch), while the local transient
state is a single mirror: each drag permutes the current mirror in place
(no queue of pending moves is kept) and the next accepted snapshot
overwrites the mirror unconditionally; in the two-drag run from `[A, B, C]`
both `Move(A, 1)` and `Move(A, 2)` go out and the mirror ends at the
composed permutation `[B, C, A]`. -/
theorem drag_dispatch_per_gesture :
    (∀ (st : List InspectItem) (e : DragEndEvent),
      ((stepQueue st (QueueEvent.dragEnd e)).2).length ≤ 1) ∧
    (∀ (st : List InspectItem) (s : InspectApi),
      stepQueue st (QueueEvent.poll s) = (acceptSnapshot s, [])) ∧
    runQueue exQueueABC [.dragEnd ⟨"A", some "B"⟩, .dragEnd ⟨"A", some "C"⟩] =
      ([mkItem "B", mkItem "C", mkItem "A"], [⟨"A", 1⟩, ⟨"A", 2⟩]) := by
  refine ⟨?_, fun _ _ => rfl, by decide⟩
  intro st e
  obtain ⟨a, over⟩ := e
  cases over with
  | none => simp [stepQueue, handleDragEnd]
  | some o =>
    by_cases h : a ≠ o <;> simp [stepQueue, handleDragEnd, h]

/-- Empty snapshot `\x7bnow_playing: null, queue: [], player: null\x7d`. -/
def exEmptySnap : InspectApi := ⟨none, [], none⟩

/-- C7, counterexample: on the empty snapshot with one enqueue request in
flight, the "Up Next" section's render guard is false (empty queue and no
now-playing entry), so zero trailing placeholders are rendered — not the
one the claim requires — and the pending request is shown as the
"Adding to queue..." state of the now-playing slot instead. -/
theorem c7_placeholder_counterexample :
    trailingPlaceholders (acceptSnapshot exEmptySnap) (nowPlayingOf exEmptySnap) true = 0 ∧
    trailingPlaceholders (acceptSnapshot exEmptySnap) (nowPlayingOf exEmptySnap) true ≠ 1 ∧
    nowPlayingSlotText (nowPlayingOf exEmptySnap) true =
      some NowPlayingEmptyText.addingToQueue := by
  decide

/-- C7 (amended): at most one trailing "resolving" placeholder is ever
rendered, regardless of how many enqueue requests are unconfirmed: exactly
one iff the enqueue mutation is pending and the up-next section renders
(nonempty queue, or an entry now playing); with the empty snapshot and one
request in flight, the now-playing slot shows the "Adding to queue..."
pending state and no trailing placeholder is rendered. -/
theorem placeholder_rendering (q : List InspectItem) (np : Option InspectItem) (p : Bool) :
    trailingPlaceholders q np p ≤ 1 ∧
    (trailingPlaceholders q np p = 1 ↔ p = true ∧ (q ≠ [] ∨ np.isSome = true)) ∧
    nowPlayingSlotText none true = some NowPlayingEmptyText.addingToQueue ∧
    trailingPlaceholders [] none true = 0 := by
  refine ⟨?_, ?_, rfl, rfl⟩
  · unfold trailingPlaceholders
    split <;> omega
  · cases p <;> cases np <;> rcases q with _ | ⟨a, t⟩ <;>
      simp [trailingPlaceholders, upNextSectionVisible]

/-- C8: submitting the form with tier `q` and URL `u` dispatches exactly one
enqueue request with body `\x7burl: u, height: QUALITY_TO_MIN_HEIGHT q\x7d`,
to `/api/queue_split` when the tier's value carries the `_s` split suffix
and to `/api/queue_merged` otherwise; in particular the 720p-split tier
`hd_s` dispatches `\x7burl, height: 720\x7d` to the split endpoint. The
checked-in four-tier form behaves the same way on its tier subset, where
the split test `quality === "sd_s"` coincides with the suffix test. -/
theorem enqueue_dispatch (q : Quality) (url : String) :
    enqueueRequests (formSubmitArgs q url) =
      [⟨(if endsWithJs (qualityValue q) "_s" then "/api/queue_split" else "/api/queue_merged"),
        url, QUALITY_TO_MIN_HEIGHT q⟩] ∧
    enqueueRequests (formSubmitArgs Quality.hd_s "https://example.com/v=abc") =
      [⟨"/api/queue_split", "https://example.com/v=abc", 720⟩] ∧
    (∀ (qc : QualityCur) (u : String),
      enqueueRequests (formSubmitArgsCur qc u) =
        [⟨(if qc = QualityCur.sd_s then "/api/queue_split" else "/api/queue_merged"),
          u, QUALITY_TO_MIN_HEIGHT_cur qc⟩]) := by
  refine ⟨?_, by decide, ?_⟩
  · cases q <;> rfl
  · intro qc u
    cases qc <;> rfl

/-- Helper: firings of the history effect after the first render count the
adjacent dependency changes. -/
theorem effectRunsAfter_count (prev : Option String) (ds : List (Option String)) :
    (effectRunsAfter prev ds).count true =
      ((prev :: ds).zip ds).countP (fun p => p.2 != p.1) := by
  induction ds generalizing prev with
  | nil => rfl
  | cons a t ih =>
    simp [effectRunsAfter, List.count_cons, List.countP_cons, ih]

/-- Helper: the history effect does not fire again while the dependency
stays unchanged. -/
theorem effectRunsAfter_const (d : Option String) (n : Nat) :
    (effectRunsAfter d (List.replicate n d)).count true = 0 := by
  induction n with
  | zero => rfl
  | succ m ih =>
    simp only [List.replicate, effectRunsAfter, List.count_cons, ih, bne_self_eq_false]
    rfl

/-- C9: over any render sequence of now-playing identities (`webpage_url`,
`none` = nothing playing), the history query is invalidated once on mount
and then exactly once per distinct change of the identity — including a
change to `none` — and never while the identity stays unchanged: over a
constant sequence the only invalidation is the mounting one. -/
theorem history_invalidation_per_change (d : Option String) (ds : List (Option String))
    (n : Nat) :
    historyInvalidations (d :: ds) = 1 + identityChanges (d :: ds) ∧
    historyInvalidations (d :: List.replicate n d) = 1 := by
  constructor
  · show (effectRuns (d :: ds)).count true = 1 + identityChanges (d :: ds)
    simp only [effectRuns, List.count_cons, effectRunsAfter_count]
    unfold identityChanges
    simp [Nat.add_comm]
  · show (effectRuns (d :: List.replicate n d)).count true = 1
    simp only [effectRuns, List.count_cons, effectRunsAfter_const]
    simp

/-- C10, counterexample: the dispatched seek time is `Math.round(percent *
length)`, which can exceed a fractional `length` at the right edge of the
bar: with `rect = (left 0, width 48)` (usable width `16 > 0`), a pointer at
`clientX = 64` clamps to `percent = 1`, and `length = 3/2` yields the
dispatched time `round(3/2) = 2 > 3/2`, violating `t ≤ L`. -/
theorem c10_seek_bound_counterexample :
    (0 : Rat) < 48 - 16 * 2 ∧
    updateTimeFromPointer 0 48 64 (3 / 2) = 2 ∧
    ¬((updateTimeFromPointer 0 48 64 (3 / 2) : Rat) ≤ 3 / 2) := by
  refine ⟨by norm_num, ?_, ?_⟩ <;>
    norm_num [updateTimeFromPointer, jsRound, Int.floor_eq_iff]

/-- C10 (amended): with a positive usable width, the dispatched `SeekTo`
time is an integer `t` with `0 ≤ t` and `t ≤ round(L)`; in particular
`t ≤ L` holds whenever the player length `L` is a whole number of seconds
(the bound the claim states can be exceeded by less than one only for a
fractional `L`). -/
theorem seek_clamp_bounds (rectLeft rectWidth clientX L : Rat)
    (hw : 0 < rectWidth - 16 * 2) (hL : 0 ≤ L) :
    0 ≤ updateTimeFromPointer rectLeft rectWidth clientX L ∧
    updateTimeFromPointer rectLeft rectWidth clientX L ≤ jsRound L ∧
    ∀ n : Nat, L = n → updateTimeFromPointer rectLeft rectWidth clientX L ≤ n := by
  have key : 0 ≤ updateTimeFromPointer rectLeft rectWidth clientX L ∧
      updateTimeFromPointer rectLeft rectWidth clientX L ≤ jsRound L := by
    simp only [updateTimeFromPointer, jsRound]
    set uw : Rat := rectWidth - 16 * 2 with huw
    set ox : Rat := min (max (clientX - rectLeft - 16) 0) uw with hox
    have h1 : 0 ≤ ox := le_min (le_max_right _ _) (le_of_lt hw)
    have h2 : ox ≤ uw := min_le_right _ _
    have hp1 : ox / uw ≤ 1 := (div_le_one hw).mpr h2
    have hp0 : 0 ≤ ox / uw := div_nonneg h1 (le_of_lt hw)
    have hA : 0 ≤ ox / uw * L := mul_nonneg hp0 hL
    have hB : ox / uw * L ≤ L := by
      calc ox / uw * L ≤ 1 * L := mul_le_mul_of_nonneg_right hp1 hL
        _ = L := one_mul L
    constructor
    · exact Int.le_floor.mpr (by push_cast; linarith)
    · exact Int.floor_le_floor (by linarith)
  refine ⟨key.1, key.2, ?_⟩
  intro n hn
  have hround : jsRound ((n : Rat)) = n := by
    unfold jsRound
    rw [show ((n : Rat) + 1 / 2) = ((n : Int) : Rat) + 1 / 2 by push_cast; ring,
      Int.floor_int_add]
    norm_num
  calc updateTimeFromPointer rectLeft rectWidth clientX L ≤ jsRound L := key.2
    _ = n := by rw [hn, hround]

/-- C10 witness: with `rect = (left 0, width 48)`, `clientX = 24` and a
100-second track, the dispatched time `50` is within `[0, 100]`. -/
theorem seek_clamp_bounds_witness :
    0 ≤ updateTimeFromPointer 0 48 24 100 ∧
    updateTimeFromPointer 0 48 24 100 ≤ jsRound 100 :=
  ⟨(seek_clamp_bounds 0 48 24 100 (by norm_num) (by norm_num)).1,
   (seek_clamp_bounds 0 48 24 100 (by norm_num) (by norm_num)).2.1⟩

end RemoteYt
